import Mathlib

/-!
Verification of the binary-options paper-trading bot
(`src/config.py`, `src/core/risk_manager.py`, `src/core/trader.py`,
`src/core/signals.py`) via a shallow embedding in Lean 4.

Modelling conventions:
* Python floats are modelled as exact rationals (`ℚ`).
* `datetime` values are modelled by `Now`: a calendar day (`ℤ`, standing for
  the `"%Y-%m-%d"` string compared by `_reset_daily_stats`) together with an
  absolute timestamp in minutes (`ℚ`); `timedelta(minutes=m)` is addition of
  `m` to the timestamp.
* Python's `round(x, d)` is modelled by `roundTo d x` using Mathlib's `round`
  (half rounds up, whereas Python rounds half to even; no property proved
  below is decided at a tie, and both conventions satisfy
  `|round x − x| ≤ 1/2`, which is all the proofs use).
* Human-readable reason strings of `RiskManager.can_trade` are abstracted
  to the `Reason` tag identifying which rule fired.
* The module-level constants of `config.py` are gathered into a `Config`
  record (`defaultConfig` holds the values in the file), so that behaviour
  under other configurations can also be stated.
-/

/-- Mirror of the constants in `src/config.py` that the core logic reads.
`minBalanceFrac` embeds the constant called MIN_BALANCE_RATIO there. -/
structure Config where
  initialBalance : ℚ
  maxRiskPerTrade : ℚ
  maxDailyLoss : ℚ
  maxConsecutiveLosses : ℕ
  cooldownMinutes : ℚ
  maxOpenTrades : ℕ
  minBalanceFrac : ℚ
  tradeExpiryMinutes : ℚ
  payoutRate : ℚ
  minSignalConfidence : ℚ
  wRsi : ℚ
  wMacd : ℚ
  wBollinger : ℚ
  wEmaCross : ℚ
  wStochastic : ℚ
  wSupportResistance : ℚ
deriving DecidableEq

/-- The default values written in `src/config.py`. -/
def defaultConfig : Config :=
  { initialBalance := 20
    maxRiskPerTrade := 1/50
    maxDailyLoss := 1/20
    maxConsecutiveLosses := 3
    cooldownMinutes := 10
    maxOpenTrades := 2
    minBalanceFrac := 1/10
    tradeExpiryMinutes := 5
    payoutRate := 4/5
    minSignalConfidence := 70
    wRsi := 1/5
    wMacd := 1/5
    wBollinger := 3/20
    wEmaCross := 1/5
    wStochastic := 3/20
    wSupportResistance := 1/10 }

/-- A wall-clock instant: the calendar day (for the lazy daily reset) and the
absolute time in minutes (for expiries and cooldowns). -/
structure Now where
  day : ℤ
  t : ℚ
deriving DecidableEq

/-- Python's `round(x, d)`: round to `d` decimal places. -/
def roundTo (d : ℕ) (x : ℚ) : ℚ :=
  ((round (x * (10 : ℚ) ^ d) : ℤ) : ℚ) / (10 : ℚ) ^ d

/-- Mirror of the `DailyStats` dataclass in `src/core/risk_manager.py`. -/
structure DailyStats where
  date : ℤ
  starting_balance : ℚ
  trades_taken : ℕ
  wins : ℕ
  losses : ℕ
  total_pnl : ℚ
  consecutive_losses : ℕ
  cooldown_until : Option ℚ
deriving DecidableEq

/-- `DailyStats.daily_loss_pct` (risk_manager.py lines 33-37). -/
def dailyLossPct (d : DailyStats) : ℚ :=
  if d.starting_balance = 0 then 0
  else |min 0 d.total_pnl| / d.starting_balance * 100

/-- One entry of `RiskManager.trade_history` (the fields the spec talks
about; the timestamp string and the extra `trade_info` metadata are not
modelled). -/
structure TradeRecord where
  result : String
  amount : ℚ
  pnl : ℚ
  balance_after : ℚ
deriving DecidableEq

/-- Mutable state of `RiskManager`. -/
structure RMState where
  initial_balance : ℚ
  balance : ℚ
  daily_stats : DailyStats
  open_trades_count : ℕ
  trade_history : List TradeRecord
deriving DecidableEq

/-- `RiskManager._reset_daily_stats`: on a date change, replace the daily
stats with a fresh record whose `starting_balance` is the current balance. -/
def resetDailyStats (s : RMState) (now : Now) : RMState :=
  if s.daily_stats.date ≠ now.day then
    { s with daily_stats :=
      { date := now.day, starting_balance := s.balance, trades_taken := 0,
        wins := 0, losses := 0, total_pnl := 0, consecutive_losses := 0,
        cooldown_until := none } }
  else s

/-- `RiskManager.__init__`.  Python's `balance or config.INITIAL_BALANCE`
treats both `None` and `0.0` as falsy, so a zero argument also falls back to
the configured initial balance. -/
def mkRiskManager (cfg : Config) (balance : Option ℚ) (now : Now) : RMState :=
  let init :=
    match balance with
    | none => cfg.initialBalance
    | some b => if b = 0 then cfg.initialBalance else b
  resetDailyStats
    { initial_balance := init, balance := init
      daily_stats :=
        { date := now.day - 1, starting_balance := 0, trades_taken := 0,
          wins := 0, losses := 0, total_pnl := 0, consecutive_losses := 0,
          cooldown_until := none }
      open_trades_count := 0
      trade_history := [] } now

/-- `RiskManager.calculate_position_size`: `round(balance × risk, 2)`. -/
def positionSize (cfg : Config) (s : RMState) : ℚ :=
  roundTo 2 (s.balance * cfg.maxRiskPerTrade)

/-- Which rule of `RiskManager.can_trade` produced the returned reason
string (the formatted text itself is presentation and is not modelled). -/
inductive Reason
  | balanceTooLow
  | dailyLossLimit
  | cooldownActive
  | maxOpenTrades
  | positionTooSmall
  | allChecksPassed
deriving DecidableEq

/-- Rules 4 and 5 of `RiskManager.can_trade` (lines 112-125), reached after
rules 1-3 declined to block. -/
def canTradeRest (cfg : Config) (s : RMState) : Bool × Reason × RMState :=
  if s.open_trades_count ≥ cfg.maxOpenTrades then (false, .maxOpenTrades, s)
  else if positionSize cfg s < 1/100 then (false, .positionTooSmall, s)
  else (true, .allChecksPassed, s)

/-- `RiskManager.can_trade` (lines 71-125).  The returned state reflects the
in-place mutations the Python method performs (daily reset, and the streak
reset when an expired cooldown is encountered in rule 3). -/
def canTrade (cfg : Config) (s : RMState) (now : Now) : Bool × Reason × RMState :=
  let s := resetDailyStats s now
  if s.balance < s.initial_balance * cfg.minBalanceFrac then
    (false, .balanceTooLow, s)
  else if dailyLossPct s.daily_stats ≥ cfg.maxDailyLoss * 100 then
    (false, .dailyLossLimit, s)
  else if s.daily_stats.consecutive_losses ≥ cfg.maxConsecutiveLosses then
    match s.daily_stats.cooldown_until with
    | some cu =>
      if now.t < cu then (false, .cooldownActive, s)
      else
        canTradeRest cfg
          { s with daily_stats :=
            { s.daily_stats with consecutive_losses := 0, cooldown_until := none } }
    | none => canTradeRest cfg s
  else canTradeRest cfg s

/-- `RiskManager.record_trade_result` (lines 133-179). -/
def recordTradeResult (cfg : Config) (s : RMState) (now : Now)
    (won : Bool) (amount : ℚ) : RMState :=
  let s := resetDailyStats s now
  let s :=
    if won then
      { s with
        balance := s.balance + amount * cfg.payoutRate
        daily_stats :=
          { s.daily_stats with
            wins := s.daily_stats.wins + 1
            total_pnl := s.daily_stats.total_pnl + amount * cfg.payoutRate
            consecutive_losses := 0 } }
    else
      { s with
        balance := s.balance - amount
        daily_stats :=
          { s.daily_stats with
            losses := s.daily_stats.losses + 1
            total_pnl := s.daily_stats.total_pnl - amount
            consecutive_losses := s.daily_stats.consecutive_losses + 1
            cooldown_until :=
              if s.daily_stats.consecutive_losses + 1 ≥ cfg.maxConsecutiveLosses
              then some (now.t + cfg.cooldownMinutes)
              else s.daily_stats.cooldown_until } }
  let s := { s with daily_stats :=
    { s.daily_stats with trades_taken := s.daily_stats.trades_taken + 1 } }
  { s with trade_history := s.trade_history ++
      [{ result := if won then "WIN" else "LOSS"
         amount := amount
         pnl := if won then amount * cfg.payoutRate else -amount
         balance_after := s.balance }] }

/-- `RiskManager.open_trade`. -/
def openTrade (s : RMState) : RMState :=
  { s with open_trades_count := s.open_trades_count + 1 }

/-- `RiskManager.close_trade`: `max(0, count − 1)`, which on `ℕ` is
truncated subtraction. -/
def closeTrade (s : RMState) : RMState :=
  { s with open_trades_count := s.open_trades_count - 1 }

/-- One call of `record_trade_result`, with the wall clock at the call. -/
structure RTEvent where
  now : Now
  won : Bool
  amount : ℚ
deriving DecidableEq

/-- Fold a sequence of resolved-trade outcomes into the risk state. -/
def recordAll (cfg : Config) (s : RMState) (events : List RTEvent) : RMState :=
  events.foldl (fun st e => recordTradeResult cfg st e.now e.won e.amount) s

/-- A trading signal (`Signal` in `src/core/signals.py`); the per-indicator
breakdown dict and the creation timestamp are presentation data and are not
modelled.  The constructor stores `round(confidence, 1)`. -/
structure Signal where
  symbol : String
  direction : String
  confidence : ℚ
  price : ℚ
  timeframe : String
deriving DecidableEq

/-- The `Trade` dataclass in `src/core/trader.py`. -/
structure Trade where
  id : ℕ
  symbol : String
  direction : String
  entry_price : ℚ
  stake : ℚ
  confidence : ℚ
  entry_time : ℚ
  expiry_time : ℚ
  exit_price : Option ℚ
  result : Option String
  pnl : ℚ
  resolved : Bool
deriving DecidableEq

/-- Construction of a `Trade` in `TradingEngine.process_signal`, including
`__post_init__`: `expiry_time = entry_time + TRADE_EXPIRY_MINUTES`. -/
def mkTrade (cfg : Config) (id : ℕ) (symbol direction : String)
    (entry_price stake confidence : ℚ) (now : Now) : Trade :=
  { id := id, symbol := symbol, direction := direction
    entry_price := entry_price, stake := stake, confidence := confidence
    entry_time := now.t, expiry_time := now.t + cfg.tradeExpiryMinutes
    exit_price := none, result := none, pnl := 0, resolved := false }

/-- `Trade.is_expired`: `datetime.now() >= expiry_time`. -/
def tradeExpired (t : Trade) (now : Now) : Bool :=
  now.t ≥ t.expiry_time

/-- Mutable state of `TradingEngine` (the signal log, display helpers and
the demo-loss routine are presentation and are not modelled). -/
structure Engine where
  rm : RMState
  active_trades : List Trade
  completed_trades : List Trade
  trade_counter : ℕ

/-- A fresh `TradingEngine` over a fresh `RiskManager`. -/
def engineInit (cfg : Config) (now : Now) : Engine :=
  { rm := mkRiskManager cfg none now, active_trades := [],
    completed_trades := [], trade_counter := 0 }

/-- `TradingEngine._resolve_trade` (lines 160-197): returns the updated risk
state and the updated trade.  A trade with no `exit_price` is returned
unchanged.  Note that the direction test is `== "CALL"`, any other string
taking the PUT branch, exactly as in the source. -/
def resolveTrade (cfg : Config) (rm : RMState) (t : Trade) (now : Now) :
    RMState × Trade :=
  match t.exit_price with
  | none => (rm, t)
  | some x =>
    let won : Bool :=
      if t.direction = "CALL" then x > t.entry_price else x < t.entry_price
    let t :=
      { t with
        resolved := true
        result := some (if won then "WIN" else "LOSS")
        pnl := if won then t.stake * cfg.payoutRate else -t.stake }
    (recordTradeResult cfg rm now won t.stake, t)

/-- The body of the loop in `TradingEngine.check_and_resolve_trades`
(lines 141-158), processing one active trade: the accumulator carries the
risk state, the `still_active` list built so far, and the completed list. -/
def resolveOne (cfg : Config) (now : Now) (prices : String → Option ℚ)
    (acc : RMState × List Trade × List Trade) (t : Trade) :
    RMState × List Trade × List Trade :=
  let (rm, stillActive, completed) := acc
  if tradeExpired t now then
    match prices t.symbol with
    | none =>
      (rm, stillActive ++ [{ t with expiry_time := t.expiry_time + 1 }], completed)
    | some p =>
      let r := resolveTrade cfg rm { t with exit_price := some p } now
      (closeTrade r.1, stillActive, completed ++ [r.2])
  else (rm, stillActive ++ [t], completed)

/-- `TradingEngine.check_and_resolve_trades` (lines 132-158). -/
def checkAndResolveTrades (cfg : Config) (e : Engine) (now : Now)
    (prices : String → Option ℚ) : Engine :=
  let r := e.active_trades.foldl (resolveOne cfg now prices) (e.rm, [], e.completed_trades)
  { e with rm := r.1, active_trades := r.2.1, completed_trades := r.2.2 }

/-- `TradingEngine.process_signal` (lines 78-130): risk check, position
sizing, then either open a trade (appending it to the active list and
incrementing the open-trade counter) or return `none` when blocked. -/
def processSignal (cfg : Config) (e : Engine) (sig : Signal) (now : Now) :
    Engine × Option Trade :=
  let c := canTrade cfg e.rm now
  if c.1 then
    let rm := c.2.2
    let stake := positionSize cfg rm
    let n := e.trade_counter + 1
    let t := mkTrade cfg n sig.symbol sig.direction sig.price stake sig.confidence now
    ({ rm := openTrade rm, active_trades := e.active_trades ++ [t],
       completed_trades := e.completed_trades, trade_counter := n }, some t)
  else
    ({ e with rm := c.2.2 }, none)

/-- The two lifecycle operations driven by the orchestration layer. -/
inductive Op
  | signal (sig : Signal) (now : Now)
  | tick (now : Now) (prices : String → Option ℚ)

/-- Apply one lifecycle operation to the engine. -/
def applyOp (cfg : Config) (e : Engine) : Op → Engine
  | .signal sig now => (processSignal cfg e sig now).1
  | .tick now prices => checkAndResolveTrades cfg e now prices

/-- Run a sequence of lifecycle operations. -/
def runOps (cfg : Config) (e : Engine) (ops : List Op) : Engine :=
  ops.foldl (applyOp cfg) e

/-- The statistics record returned by `TradingEngine.get_stats`. -/
structure Stats where
  total_trades : ℕ
  wins : ℕ
  losses : ℕ
  win_rate : ℚ
  total_pnl : ℚ
  active_count : ℕ
  best_trade : ℚ
  worst_trade : ℚ
deriving DecidableEq

/-- `TradingEngine.get_stats` (lines 252-268).  Python's
`max(gen, default=0)` / `min(gen, default=0)` are `List.max?`/`List.min?`
with default `0`. -/
def getStats (e : Engine) : Stats :=
  let total := e.completed_trades.length
  let wins := e.completed_trades.countP (fun t => t.result = some "WIN")
  let losses := e.completed_trades.countP (fun t => t.result = some "LOSS")
  { total_trades := total
    wins := wins
    losses := losses
    win_rate := if total > 0 then (wins : ℚ) / (total : ℚ) * 100 else 0
    total_pnl := (e.completed_trades.map Trade.pnl).sum
    active_count := e.active_trades.length
    best_trade := ((e.completed_trades.map Trade.pnl).max?).getD 0
    worst_trade := ((e.completed_trades.map Trade.pnl).min?).getD 0 }

/-- The score and direction one indicator reports to
`SignalEngine.analyze` (its internal computation over the price frame is
the `ta`-library numerics; the aggregation below is stated for arbitrary
indicator outputs, which covers every price history). -/
structure IndOut where
  score : ℚ
  dir : String
deriving DecidableEq

/-- The `INDICATOR_WEIGHTS` dict lookup `self.weights.get(ind, 0)`. -/
def weightOf (cfg : Config) : String → ℚ
  | "rsi" => cfg.wRsi
  | "macd" => cfg.wMacd
  | "bollinger" => cfg.wBollinger
  | "ema_cross" => cfg.wEmaCross
  | "stochastic" => cfg.wStochastic
  | "support_resistance" => cfg.wSupportResistance
  | _ => 0

/-- The six `(name, result)` pairs in the order `analyze` collects them. -/
def indList (r m b e st sr : IndOut) : List (String × IndOut) :=
  [("rsi", r), ("macd", m), ("bollinger", b),
   ("ema_cross", e), ("stochastic", st), ("support_resistance", sr)]

/-- `call_weight` of `analyze` (lines 102-109). -/
def callWeight (cfg : Config) (l : List (String × IndOut)) : ℚ :=
  (l.map (fun p => if p.2.dir = "CALL" then weightOf cfg p.1 * p.2.score else 0)).sum

/-- `put_weight` of `analyze` (lines 102-109). -/
def putWeight (cfg : Config) (l : List (String × IndOut)) : ℚ :=
  (l.map (fun p => if p.2.dir = "PUT" then weightOf cfg p.1 * p.2.score else 0)).sum

/-- `overall_direction` (lines 114-119): ties favour CALL. -/
def overallDirection (cfg : Config) (l : List (String × IndOut)) : String :=
  if callWeight cfg l ≥ putWeight cfg l then "CALL" else "PUT"

/-- `agreement_ratio` (lines 114-119): the winning side's weighted sum over
the total, `0` when the total is not positive. -/
def agreeFrac (cfg : Config) (l : List (String × IndOut)) : ℚ :=
  let c := callWeight cfg l
  let p := putWeight cfg l
  let w := if c ≥ p then c else p
  if c + p > 0 then w / (c + p) else 0

/-- `sum(self.weights.values())` (line 126). -/
def weightsSum (cfg : Config) : ℚ :=
  cfg.wRsi + cfg.wMacd + cfg.wBollinger + cfg.wEmaCross +
    cfg.wStochastic + cfg.wSupportResistance

/-- The pre-boost `confidence` (lines 121-127). -/
def baseConfidence (cfg : Config) (l : List (String × IndOut)) : ℚ :=
  let wsum := (l.map (fun p => weightOf cfg p.1 * p.2.score)).sum
  let mp := weightsSum cfg * 100
  if mp > 0 then wsum / mp * 100 * agreeFrac cfg l else 0

/-- `confidence` after the agreement boost (lines 129-134): ×1.15 capped at
100 when at least five indicators vote the winning direction, ×1.05 capped
at 100 when exactly four do. -/
def boostedConfidence (cfg : Config) (l : List (String × IndOut)) : ℚ :=
  let c := baseConfidence cfg l
  let agreeing := l.countP (fun p => p.2.dir = overallDirection cfg l)
  if agreeing ≥ 5 then min 100 (c * (23/20))
  else if agreeing ≥ 4 then min 100 (c * (21/20))
  else c

/-- `SignalEngine.analyze` (signals.py lines 57-163), stated over the six
indicator outputs: the bar-count guard, the weighted vote, the confidence
computation with agreement boost, and the confidence floor.  `n` is
`len(df)` and `price` is `df["close"].iloc[-1]`. -/
def analyzeAggregate (cfg : Config) (symbol : String) (n : ℕ) (price : ℚ)
    (timeframe : String) (r m b e st sr : IndOut) : Option Signal :=
  if n < 50 then none
  else if callWeight cfg (indList r m b e st sr) = 0
      ∧ putWeight cfg (indList r m b e st sr) = 0 then none
  else if boostedConfidence cfg (indList r m b e st sr)
      ≥ cfg.minSignalConfidence then
    some { symbol := symbol,
           direction := overallDirection cfg (indList r m b e st sr),
           confidence :=
             roundTo 1 (boostedConfidence cfg (indList r m b e st sr)),
           price := price, timeframe := timeframe }
  else none

/-- The percentage distance between the two EMAs, as computed at
signals.py line 284 (and as the spec words it): `|fast − slow| / slow × 100`. -/
def emaGapPct (fastNow slowNow : ℚ) : ℚ :=
  |fastNow - slowNow| / slowNow * 100

/-- `SignalEngine._analyze_ema_cross` (lines 263-292), stated over the four
EMA values the source reads from the indicator series (`slowNow = 0` takes
the guarded `gap_pct = 0` branch of line 284). -/
def analyzeEmaCross (fastPrev slowPrev fastNow slowNow : ℚ) : ℚ × String :=
  if fastPrev ≤ slowPrev ∧ fastNow > slowNow then (90, "CALL")
  else if fastPrev ≥ slowPrev ∧ fastNow < slowNow then (90, "PUT")
  else
    let gap := if slowNow ≠ 0 then emaGapPct fastNow slowNow else 0
    if fastNow > slowNow then (min 70 (40 + gap * 100), "CALL")
    else if fastNow < slowNow then (min 70 (40 + gap * 100), "PUT")
    else (0, "NEUTRAL")

/-- `SignalEngine.__init__` (signals.py lines 54-55): the constructor only
stores the configured weights; it performs no validation. -/
def mkSignalEngine (cfg : Config) : String → ℚ :=
  weightOf cfg

/-! ### Basic facts about the daily reset and outcome recording -/

lemma resetDaily_balance (s : RMState) (now : Now) :
    (resetDailyStats s now).balance = s.balance := by
  unfold resetDailyStats; split <;> rfl

lemma resetDaily_initial (s : RMState) (now : Now) :
    (resetDailyStats s now).initial_balance = s.initial_balance := by
  unfold resetDailyStats; split <;> rfl

lemma resetDaily_history (s : RMState) (now : Now) :
    (resetDailyStats s now).trade_history = s.trade_history := by
  unfold resetDailyStats; split <;> rfl

lemma record_balance (cfg : Config) (s : RMState) (now : Now) (won : Bool)
    (amount : ℚ) :
    (recordTradeResult cfg s now won amount).balance
      = s.balance + (if won then amount * cfg.payoutRate else -amount) := by
  unfold recordTradeResult
  cases won
  · simp [resetDaily_balance]
    ring
  · simp [resetDaily_balance]

lemma record_initial (cfg : Config) (s : RMState) (now : Now) (won : Bool)
    (amount : ℚ) :
    (recordTradeResult cfg s now won amount).initial_balance
      = s.initial_balance := by
  unfold recordTradeResult
  cases won <;> simp [resetDaily_initial]

lemma record_history_pnl (cfg : Config) (s : RMState) (now : Now) (won : Bool)
    (amount : ℚ) :
    ((recordTradeResult cfg s now won amount).trade_history.map TradeRecord.pnl)
      = s.trade_history.map TradeRecord.pnl
        ++ [if won then amount * cfg.payoutRate else -amount] := by
  unfold recordTradeResult
  cases won <;> simp [resetDaily_history]

/-- The pnl the recorded history entry carries for one outcome. -/
def eventPnl (cfg : Config) (e : RTEvent) : ℚ :=
  if e.won then e.amount * cfg.payoutRate else -e.amount

lemma recordAll_balance (cfg : Config) (events : List RTEvent) :
    ∀ s : RMState, (recordAll cfg s events).balance
      = s.balance + (events.map (eventPnl cfg)).sum := by
  induction events with
  | nil => intro s; simp [recordAll]
  | cons e es ih =>
    intro s
    have : recordAll cfg s (e :: es)
        = recordAll cfg (recordTradeResult cfg s e.now e.won e.amount) es := rfl
    rw [this, ih, record_balance]
    simp [eventPnl]
    ring

lemma recordAll_initial (cfg : Config) (events : List RTEvent) :
    ∀ s : RMState, (recordAll cfg s events).initial_balance = s.initial_balance := by
  induction events with
  | nil => intro s; simp [recordAll]
  | cons e es ih =>
    intro s
    have : recordAll cfg s (e :: es)
        = recordAll cfg (recordTradeResult cfg s e.now e.won e.amount) es := rfl
    rw [this, ih, record_initial]

lemma recordAll_history_pnl (cfg : Config) (events : List RTEvent) :
    ∀ s : RMState, ((recordAll cfg s events).trade_history.map TradeRecord.pnl)
      = s.trade_history.map TradeRecord.pnl ++ events.map (eventPnl cfg) := by
  induction events with
  | nil => intro s; simp [recordAll]
  | cons e es ih =>
    intro s
    have : recordAll cfg s (e :: es)
        = recordAll cfg (recordTradeResult cfg s e.now e.won e.amount) es := rfl
    rw [this, ih, record_history_pnl]
    simp [eventPnl]

/-- Claim C1: for every sequence of resolved trades recorded via
`record_trade_result` (a WIN adds `stake × payout_rate`, a LOSS subtracts the
stake), the balance equals `initial_balance` plus the sum of the pnl values
stored for those trades, after any interleaving of wins and losses. -/
theorem c1_balance_conservation (cfg : Config) (b : Option ℚ) (now0 : Now)
    (events : List RTEvent) :
    (recordAll cfg (mkRiskManager cfg b now0) events).balance
      = (recordAll cfg (mkRiskManager cfg b now0) events).initial_balance
        + ((recordAll cfg (mkRiskManager cfg b now0) events).trade_history.map
            TradeRecord.pnl).sum := by
  have hb : (mkRiskManager cfg b now0).balance
      = (mkRiskManager cfg b now0).initial_balance := by
    unfold mkRiskManager
    simp [resetDaily_balance, resetDaily_initial]
  have hh : (mkRiskManager cfg b now0).trade_history = [] := by
    unfold mkRiskManager
    simp [resetDaily_history]
  rw [recordAll_balance, recordAll_initial, recordAll_history_pnl, hb, hh]
  simp

/-- Claim C2: with a known exit price, a CALL wins iff `exit > entry`, a PUT
wins iff `exit < entry`, exact equality loses for both directions, a win
sets `pnl = stake × payout_rate` and a loss sets `pnl = −stake`. -/
theorem c2_resolution_outcome (cfg : Config) (rm : RMState) (t : Trade)
    (now : Now) (x : ℚ) (h : t.exit_price = some x) :
    ((resolveTrade cfg rm t now).2.resolved = true) ∧
    (t.direction = "CALL" →
      ((resolveTrade cfg rm t now).2.result = some "WIN" ↔ t.entry_price < x)) ∧
    (t.direction = "PUT" →
      ((resolveTrade cfg rm t now).2.result = some "WIN" ↔ x < t.entry_price)) ∧
    (x = t.entry_price → (resolveTrade cfg rm t now).2.result = some "LOSS") ∧
    ((resolveTrade cfg rm t now).2.result = some "WIN" →
      (resolveTrade cfg rm t now).2.pnl = t.stake * cfg.payoutRate) ∧
    ((resolveTrade cfg rm t now).2.result = some "LOSS" →
      (resolveTrade cfg rm t now).2.pnl = -t.stake) := by
  by_cases hd : t.direction = "CALL"
  · by_cases hx : t.entry_price < x
    · simp [resolveTrade, h, hd, hx]
      exact ne_of_gt hx
    · simp [resolveTrade, h, hd, hx]
  · by_cases hx : x < t.entry_price
    · simp [resolveTrade, h, hd, hx]
      exact ne_of_lt hx
    · simp [resolveTrade, h, hd, hx]

/-- Witness for C2: a PUT trade with `entry_price = exit_price = 1.10000`
resolves as LOSS and forfeits the stake. -/
theorem c2_witness :
    ((resolveTrade defaultConfig (mkRiskManager defaultConfig none ⟨0, 0⟩)
        ⟨1, "EUR/USD", "PUT", 11/10, 2/5, 75, 0, 5, some (11/10), none, 0, false⟩
        ⟨0, 6⟩).2.result = some "LOSS") ∧
    ((resolveTrade defaultConfig (mkRiskManager defaultConfig none ⟨0, 0⟩)
        ⟨1, "EUR/USD", "PUT", 11/10, 2/5, 75, 0, 5, some (11/10), none, 0, false⟩
        ⟨0, 6⟩).2.pnl = -(2/5)) := by
  have h := c2_resolution_outcome defaultConfig
    (mkRiskManager defaultConfig none ⟨0, 0⟩)
    ⟨1, "EUR/USD", "PUT", 11/10, 2/5, 75, 0, 5, some (11/10), none, 0, false⟩
    ⟨0, 6⟩ (11/10) rfl
  have hl := h.2.2.2.1 rfl
  refine ⟨hl, ?_⟩
  have := h.2.2.2.2.2 hl
  simpa using this

/-- Claim C10: `get_stats` is total on an empty completed history: with no
completed trades it reports `win_rate = 0`, `best_trade = 0` and
`worst_trade = 0` instead of failing. -/
theorem c10_stats_total_on_empty (e : Engine) (h : e.completed_trades = []) :
    (getStats e).win_rate = 0 ∧ (getStats e).best_trade = 0 ∧
    (getStats e).worst_trade = 0 := by
  simp [getStats, h]

/-- Witness for C10: the freshly initialised engine has an empty history and
reports the three zero statistics. -/
theorem c10_witness :
    (getStats (engineInit defaultConfig ⟨0, 0⟩)).win_rate = 0 ∧
    (getStats (engineInit defaultConfig ⟨0, 0⟩)).best_trade = 0 ∧
    (getStats (engineInit defaultConfig ⟨0, 0⟩)).worst_trade = 0 :=
  c10_stats_total_on_empty (engineInit defaultConfig ⟨0, 0⟩) rfl

/-! ### Streak and cooldown behaviour of `record_trade_result` (C4) -/

/-- A same-day risk state that has already accumulated three consecutive
losses (with the cooldown that was set when the third loss was recorded). -/
def streakState : RMState :=
  { initial_balance := 20, balance := 94/5
    daily_stats :=
      { date := 0, starting_balance := 20, trades_taken := 3, wins := 0,
        losses := 3, total_pnl := -(6/5), consecutive_losses := 3,
        cooldown_until := some 9 }
    open_trades_count := 1
    trade_history := [] }

/-- Counterexample to C4 as stated: a loss recorded while
`consecutive_losses` is already 3 raises the streak to 4 — not exactly
`max_consecutive = 3` — yet the code still sets
`cooldown_until = now + 10` because its test is `>=`, not `==`. -/
theorem c4_counterexample :
    (recordTradeResult defaultConfig streakState ⟨0, 12⟩ false
        (2/5)).daily_stats.consecutive_losses = 4 ∧
    (recordTradeResult defaultConfig streakState ⟨0, 12⟩ false
        (2/5)).daily_stats.cooldown_until = some 22 ∧
    4 ≠ defaultConfig.maxConsecutiveLosses := by
  refine ⟨?_, ?_, by decide⟩ <;>
    norm_num [recordTradeResult, resetDailyStats, streakState, defaultConfig]

/-- Claim C4 (amended): within a trading day, `record_trade_result` sets
`cooldown_until = now + cooldown_duration` exactly when a recorded loss
makes `consecutive_losses` reach `max_consecutive` *or more* (the source
tests `>=`, so a fourth, fifth, ... consecutive loss re-arms the cooldown
too); a win never sets `cooldown_until` and resets `consecutive_losses` to
0, and each loss increments `consecutive_losses` by exactly 1. -/
theorem c4_streak_cooldown (cfg : Config) (s : RMState) (now : Now)
    (won : Bool) (amount : ℚ) (h : s.daily_stats.date = now.day) :
    (won = true →
      (recordTradeResult cfg s now won amount).daily_stats.cooldown_until
          = s.daily_stats.cooldown_until ∧
      (recordTradeResult cfg s now won amount).daily_stats.consecutive_losses
          = 0) ∧
    (won = false →
      (recordTradeResult cfg s now won amount).daily_stats.consecutive_losses
          = s.daily_stats.consecutive_losses + 1 ∧
      (recordTradeResult cfg s now won amount).daily_stats.cooldown_until
          = (if s.daily_stats.consecutive_losses + 1 ≥ cfg.maxConsecutiveLosses
             then some (now.t + cfg.cooldownMinutes)
             else s.daily_stats.cooldown_until)) := by
  have hr : resetDailyStats s now = s := by
    unfold resetDailyStats
    simp [h]
  cases won <;> simp [recordTradeResult, hr]

/-- Witness for C4 (amended): recording a loss on a fresh same-day state
increments the streak from 0 to 1 and, 1 being below `max_consecutive = 3`,
leaves the cooldown unset. -/
theorem c4_witness :
    (recordTradeResult defaultConfig (mkRiskManager defaultConfig none ⟨0, 0⟩)
        ⟨0, 5⟩ false (2/5)).daily_stats.consecutive_losses
      = (mkRiskManager defaultConfig none ⟨0, 0⟩).daily_stats.consecutive_losses
        + 1 ∧
    (recordTradeResult defaultConfig (mkRiskManager defaultConfig none ⟨0, 0⟩)
        ⟨0, 5⟩ false (2/5)).daily_stats.cooldown_until = none := by
  have h := c4_streak_cooldown defaultConfig
    (mkRiskManager defaultConfig none ⟨0, 0⟩) ⟨0, 5⟩ false (2/5) (by decide)
  refine ⟨(h.2 rfl).1, ?_⟩
  have h2 := (h.2 rfl).2
  rw [h2]
  decide

/-! ### The deferred-resolution retry path (C7) -/

/-- Claim C7: when the resolution loop meets an expired active trade whose
symbol has no current price, it extends the trade's expiry by exactly one
minute and keeps it in the still-active list; the risk state and the
completed list are untouched (so neither `record_trade_result` nor
`close_trade` ran), and the trade's exit price, result, pnl and resolved
flag are unchanged. -/
theorem c7_defer_on_missing_price (cfg : Config) (now : Now)
    (prices : String → Option ℚ) (rm : RMState) (sa comp : List Trade)
    (t : Trade) (h1 : tradeExpired t now = true)
    (h2 : prices t.symbol = none) :
    resolveOne cfg now prices (rm, sa, comp) t
      = (rm, sa ++ [{ t with expiry_time := t.expiry_time + 1 }], comp) ∧
    ({ t with expiry_time := t.expiry_time + 1 }).exit_price = t.exit_price ∧
    ({ t with expiry_time := t.expiry_time + 1 }).result = t.result ∧
    ({ t with expiry_time := t.expiry_time + 1 }).pnl = t.pnl ∧
    ({ t with expiry_time := t.expiry_time + 1 }).resolved = t.resolved := by
  refine ⟨?_, rfl, rfl, rfl, rfl⟩
  simp [resolveOne, h1, h2]

/-- Witness for C7: a concrete expired EUR/USD trade with an empty price
map is deferred by one minute with the risk state unchanged. -/
theorem c7_witness :
    resolveOne defaultConfig ⟨0, 6⟩ (fun _ => none)
        (mkRiskManager defaultConfig none ⟨0, 0⟩, [], [])
        ⟨1, "EUR/USD", "CALL", 11/10, 2/5, 75, 0, 5, none, none, 0, false⟩
      = (mkRiskManager defaultConfig none ⟨0, 0⟩,
         [⟨1, "EUR/USD", "CALL", 11/10, 2/5, 75, 0, 6, none, none, 0, false⟩],
         []) := by
  have h := c7_defer_on_missing_price defaultConfig ⟨0, 6⟩ (fun _ => none)
    (mkRiskManager defaultConfig none ⟨0, 0⟩) [] []
    ⟨1, "EUR/USD", "CALL", 11/10, 2/5, 75, 0, 5, none, none, 0, false⟩
    (by decide) rfl
  rw [h.1]
  norm_num

/-! ### EMA-cross sustained-trend scoring (C5) -/

/-- Counterexample to C5 as stated: with no fresh crossover, fast EMA 101
above slow EMA 100 (both now and previously), the gap is
`gap_pct = |101 − 100| / 100 × 100 = 1`, so the claim predicts a score of
`min(70, 40 + 1) = 41`; the code computes `min(70, 40 + gap_pct × 100)` at
line 286 and returns 70. -/
theorem c5_counterexample :
    analyzeEmaCross 101 100 101 100 = (70, "CALL") ∧
    emaGapPct 101 100 = 1 ∧
    min (70 : ℚ) (40 + emaGapPct 101 100) = 41 ∧
    ((70 : ℚ), "CALL") ≠ ((41 : ℚ), "CALL") := by
  refine ⟨?_, by norm_num [emaGapPct], by norm_num [emaGapPct], by norm_num⟩
  norm_num [analyzeEmaCross, emaGapPct]

/-- Claim C5 (amended): with no fresh crossover and a nonzero slow EMA, the
sustained-trend score is `min(70, 40 + gap_pct × 100)` — the code multiplies
the percentage gap by a further 100 — with direction CALL when the fast EMA
leads above and PUT when it leads below, where
`gap_pct = |fast − slow| / slow × 100`. -/
theorem c5_ema_sustained_score (fp sp fn sn : ℚ) :
    (sn ≠ 0 → sn < fn → sp < fp →
      analyzeEmaCross fp sp fn sn
        = (min 70 (40 + emaGapPct fn sn * 100), "CALL")) ∧
    (sn ≠ 0 → fn < sn → fp < sp →
      analyzeEmaCross fp sp fn sn
        = (min 70 (40 + emaGapPct fn sn * 100), "PUT")) := by
  constructor
  · intro h0 h1 h2
    have hnc1 : ¬(fp ≤ sp ∧ sn < fn) := by
      intro hc
      exact absurd hc.1 (not_le.mpr h2)
    have hnc2 : ¬(sp ≤ fp ∧ fn < sn) := by
      intro hc
      exact absurd hc.2 (not_lt.mpr (le_of_lt h1))
    simp [analyzeEmaCross, hnc1, hnc2, h0, h1]
    intro hle
    exact absurd hle (not_le.mpr h2)
  · intro h0 h1 h2
    have hnc1 : ¬(fp ≤ sp ∧ sn < fn) := by
      intro hc
      exact absurd hc.2 (not_lt.mpr (le_of_lt h1))
    have hnc2 : ¬(sp ≤ fp ∧ fn < sn) := by
      intro hc
      exact absurd hc.1 (not_le.mpr h2)
    simp [analyzeEmaCross, hnc1, hnc2, h0, h1, not_lt.mpr (le_of_lt h1)]
    intro hle
    exact absurd hle (not_le.mpr h2)

/-- Witness for C5 (amended): fast EMA 101 leading over slow EMA 100 with
the previous values also ordered fast over slow scores
`min(70, 40 + 1 × 100) = 70` with direction CALL. -/
theorem c5_witness :
    analyzeEmaCross 2 1 101 100
      = (min 70 (40 + emaGapPct 101 100 * 100), "CALL") :=
  (c5_ema_sustained_score 2 1 101 100).1 (by norm_num) (by norm_num)
    (by norm_num)

/-! ### Rounding bound shared by the confidence floor and position sizing -/

lemma roundTo_int_div_le (d : ℕ) (k : ℤ) (x : ℚ)
    (h : (k : ℚ) / (10 : ℚ) ^ d ≤ x) :
    (k : ℚ) / (10 : ℚ) ^ d ≤ roundTo d x := by
  have hp : (0 : ℚ) < (10 : ℚ) ^ d := by positivity
  unfold roundTo
  rw [div_le_div_iff_of_pos_right hp]
  have hk : (k : ℚ) ≤ x * (10 : ℚ) ^ d := by
    rw [div_le_iff₀ hp] at h
    exact h
  have : k ≤ round (x * (10 : ℚ) ^ d) := by
    rw [round_eq, Int.le_floor]
    linarith
  exact_mod_cast this

/-- Claim C3: `SignalEngine.analyze` under the default configuration never
returns a `Signal` whose (stored, 1-decimal-rounded) confidence is below
the configured minimum of 70; a sub-threshold confidence yields `none`, the
normal no-signal outcome. -/
theorem c3_confidence_floor (symbol : String) (n : ℕ) (price : ℚ)
    (timeframe : String) (r m b e st sr : IndOut) (sig : Signal)
    (h : analyzeAggregate defaultConfig symbol n price timeframe
        r m b e st sr = some sig) :
    defaultConfig.minSignalConfidence ≤ sig.confidence := by
  unfold analyzeAggregate at h
  split at h
  · exact absurd h (by simp)
  · split at h
    · exact absurd h (by simp)
    · split at h
      · next hc =>
        have hsig := (Option.some.inj h).symm
        have hconf : sig.confidence
            = roundTo 1 (boostedConfidence defaultConfig
                (indList r m b e st sr)) := by
          rw [hsig]
        rw [hconf]
        have h70 : ((700 : ℤ) : ℚ) / (10 : ℚ) ^ (1 : ℕ)
            ≤ boostedConfidence defaultConfig (indList r m b e st sr) := by
          have h7 : ((700 : ℤ) : ℚ) / (10 : ℚ) ^ (1 : ℕ) = 70 := by norm_num
          rw [h7]
          simpa [defaultConfig] using hc
        have hr := roundTo_int_div_le 1 700
          (boostedConfidence defaultConfig (indList r m b e st sr)) h70
        have h70' : ((700 : ℤ) : ℚ) / (10 : ℚ) ^ (1 : ℕ)
            = defaultConfig.minSignalConfidence := by
          norm_num [defaultConfig]
        rw [← h70']
        exact hr
      · exact absurd h (by simp)

/-- Witness for C3: six unanimous CALL indicators at score 100 produce a
signal, and its stored confidence meets the 70-point floor. -/
theorem c3_witness :
    defaultConfig.minSignalConfidence
      ≤ Signal.confidence ⟨"EUR/USD", "CALL", 100, 1, "5m"⟩ :=
  c3_confidence_floor "EUR/USD" 55 1 "5m"
    ⟨100, "CALL"⟩ ⟨100, "CALL"⟩ ⟨100, "CALL"⟩ ⟨100, "CALL"⟩ ⟨100, "CALL"⟩
    ⟨100, "CALL"⟩ ⟨"EUR/USD", "CALL", 100, 1, "5m"⟩ (by
      have h1 : ("CALL" : String) ≠ "PUT" := by decide
      norm_num [analyzeAggregate, indList, callWeight, putWeight,
        boostedConfidence, baseConfidence, agreeFrac, overallDirection,
        weightsSum, weightOf, roundTo, round_eq, defaultConfig, h1])

/-! ### Unreachability of the position-too-small block under defaults (C9) -/

lemma positionSize_ge_min (s : RMState) (h : (2 : ℚ) ≤ s.balance) :
    (1 : ℚ) / 100 ≤ positionSize defaultConfig s := by
  have h4 : ((4 : ℤ) : ℚ) / (10 : ℚ) ^ (2 : ℕ)
      ≤ s.balance * defaultConfig.maxRiskPerTrade := by
    have : s.balance * defaultConfig.maxRiskPerTrade = s.balance / 50 := by
      norm_num [defaultConfig]
      ring
    rw [this]
    norm_num
    linarith
  have hr := roundTo_int_div_le 2 4 (s.balance * defaultConfig.maxRiskPerTrade) h4
  unfold positionSize
  calc (1 : ℚ) / 100 ≤ ((4 : ℤ) : ℚ) / (10 : ℚ) ^ (2 : ℕ) := by norm_num
    _ ≤ _ := hr

lemma canTradeRest_reason_ne_small (cfg : Config) (s : RMState)
    (h : ¬positionSize cfg s < 1/100) :
    (canTradeRest cfg s).2.1 ≠ Reason.positionTooSmall := by
  by_cases h1 : s.open_trades_count ≥ cfg.maxOpenTrades
  · simp [canTradeRest, h1]
  · have h2 : ¬positionSize cfg s < (100 : ℚ)⁻¹ := by
      simpa [one_div] using h
    simp [canTradeRest, h1, h2]

/-- Claim C9: under the default configuration (initial balance 20, minimum
balance fraction 0.10, risk 2% per trade), `can_trade` can never block with
POSITION TOO SMALL: whenever evaluation reaches rule 5 the balance survived
rule 1, so it is at least 2.00 and the rounded position size is at least
0.04 ≥ 0.01; the outcome is always a rule 1-4 block or a full pass. -/
theorem c9_position_too_small_unreachable (s : RMState) (now : Now)
    (h : s.initial_balance = 20) :
    (canTrade defaultConfig s now).2.1 ≠ Reason.positionTooSmall := by
  have hinit : (resetDailyStats s now).initial_balance = 20 := by
    rw [resetDaily_initial, h]
  intro hcontra
  simp only [canTrade] at hcontra
  split at hcontra
  · exact absurd hcontra (by simp)
  · next hbal =>
    have hb2 : (2 : ℚ) ≤ (resetDailyStats s now).balance := by
      rw [hinit] at hbal
      norm_num [defaultConfig] at hbal
      exact hbal
    split at hcontra
    · exact absurd hcontra (by simp)
    · split at hcontra
      · split at hcontra
        · split at hcontra
          · exact absurd hcontra (by simp)
          · exact canTradeRest_reason_ne_small defaultConfig _
              (not_lt.mpr (positionSize_ge_min _ (by simpa using hb2))) hcontra
        · exact canTradeRest_reason_ne_small defaultConfig _
            (not_lt.mpr (positionSize_ge_min _ hb2)) hcontra
      · exact canTradeRest_reason_ne_small defaultConfig _
          (not_lt.mpr (positionSize_ge_min _ hb2)) hcontra

/-- Witness for C9: the freshly initialised default risk manager is not
blocked by the position-size rule (indeed all checks pass on it). -/
theorem c9_witness :
    (canTrade defaultConfig (mkRiskManager defaultConfig none ⟨0, 0⟩)
        ⟨0, 0⟩).2.1 ≠ Reason.positionTooSmall :=
  c9_position_too_small_unreachable
    (mkRiskManager defaultConfig none ⟨0, 0⟩) ⟨0, 0⟩
    (by norm_num [mkRiskManager, resetDailyStats, defaultConfig])

/-! ### The open-trade counter invariant (C6) -/

lemma resetDaily_count (s : RMState) (now : Now) :
    (resetDailyStats s now).open_trades_count = s.open_trades_count := by
  unfold resetDailyStats; split <;> rfl

lemma record_count (cfg : Config) (s : RMState) (now : Now) (won : Bool)
    (amount : ℚ) :
    (recordTradeResult cfg s now won amount).open_trades_count
      = s.open_trades_count := by
  unfold recordTradeResult
  cases won <;> simp [resetDaily_count]

lemma canTradeRest_state (cfg : Config) (s : RMState) :
    (canTradeRest cfg s).2.2 = s := by
  unfold canTradeRest
  split
  · rfl
  · split <;> rfl

lemma canTrade_count (cfg : Config) (s : RMState) (now : Now) :
    ((canTrade cfg s now).2.2).open_trades_count = s.open_trades_count := by
  simp only [canTrade]
  repeat' split
  all_goals simp [canTradeRest_state, resetDaily_count]

lemma resolveTrade_fst_count (cfg : Config) (rm : RMState) (t : Trade)
    (now : Now) :
    ((resolveTrade cfg rm t now).1).open_trades_count
      = rm.open_trades_count := by
  rcases ht : t.exit_price with _ | x <;>
    simp [resolveTrade, ht, record_count]

lemma resolveTrade_snd_resolved (cfg : Config) (rm : RMState) (t : Trade)
    (now : Now) (x : ℚ) (h : t.exit_price = some x) :
    ((resolveTrade cfg rm t now).2).resolved = true := by
  simp [resolveTrade, h]

/-- The inductive invariant relating the risk gate's counter to the
engine's trade lists: the counter equals the number of active trades,
every active trade is unresolved, and every completed trade is resolved. -/
def EngineInv (e : Engine) : Prop :=
  e.rm.open_trades_count = e.active_trades.length ∧
  (∀ t ∈ e.active_trades, t.resolved = false) ∧
  (∀ t ∈ e.completed_trades, t.resolved = true)

lemma resolve_fold_inv (cfg : Config) (now : Now)
    (prices : String → Option ℚ) :
    ∀ (ts : List Trade) (rm : RMState) (sa comp : List Trade),
      (∀ t ∈ ts, t.resolved = false) →
      (∀ t ∈ sa, t.resolved = false) →
      (∀ t ∈ comp, t.resolved = true) →
      rm.open_trades_count = sa.length + ts.length →
      ((ts.foldl (resolveOne cfg now prices) (rm, sa, comp)).1.open_trades_count
          = (ts.foldl (resolveOne cfg now prices) (rm, sa, comp)).2.1.length) ∧
      (∀ t ∈ (ts.foldl (resolveOne cfg now prices) (rm, sa, comp)).2.1,
          t.resolved = false) ∧
      (∀ t ∈ (ts.foldl (resolveOne cfg now prices) (rm, sa, comp)).2.2,
          t.resolved = true) := by
  intro ts
  induction ts with
  | nil =>
    intro rm sa comp hts hsa hcomp hcount
    simp only [List.foldl_nil]
    exact ⟨by simpa using hcount, hsa, hcomp⟩
  | cons t ts ih =>
    intro rm sa comp hts hsa hcomp hcount
    have ht : t.resolved = false := hts t (by simp)
    have hts' : ∀ u ∈ ts, u.resolved = false := fun u hu => hts u (by simp [hu])
    rw [List.foldl_cons]
    cases he : tradeExpired t now with
    | false =>
      have hstep : resolveOne cfg now prices (rm, sa, comp) t
          = (rm, sa ++ [t], comp) := by
        simp [resolveOne, he]
      rw [hstep]
      apply ih
      · exact hts'
      · intro u hu
        rcases List.mem_append.mp hu with h1 | h1
        · exact hsa u h1
        · have : u = t := by simpa using h1
          rw [this]
          exact ht
      · exact hcomp
      · simp only [List.length_append, List.length_cons,
          List.length_nil] at hcount ⊢
        omega
    | true =>
      rcases hp : prices t.symbol with _ | p
      · have hstep : resolveOne cfg now prices (rm, sa, comp) t
            = (rm, sa ++ [{ t with expiry_time := t.expiry_time + 1 }], comp) := by
          simp [resolveOne, he, hp]
        rw [hstep]
        apply ih
        · exact hts'
        · intro u hu
          rcases List.mem_append.mp hu with h1 | h1
          · exact hsa u h1
          · have : u = { t with expiry_time := t.expiry_time + 1 } := by
              simpa using h1
            rw [this]
            simpa using ht
        · exact hcomp
        · simp only [List.length_append, List.length_cons,
            List.length_nil] at hcount ⊢
          omega
      · have hstep : resolveOne cfg now prices (rm, sa, comp) t
            = (closeTrade
                 (resolveTrade cfg rm { t with exit_price := some p } now).1,
               sa,
               comp ++ [(resolveTrade cfg rm
                 { t with exit_price := some p } now).2]) := by
          simp [resolveOne, he, hp]
        rw [hstep]
        apply ih
        · exact hts'
        · exact hsa
        · intro u hu
          rcases List.mem_append.mp hu with h1 | h1
          · exact hcomp u h1
          · have hu2 : u = (resolveTrade cfg rm
                { t with exit_price := some p } now).2 := by
              simpa using h1
            rw [hu2]
            exact resolveTrade_snd_resolved cfg rm _ now p rfl
        · have h1 : (resolveTrade cfg rm
              { t with exit_price := some p } now).1.open_trades_count
                = rm.open_trades_count := resolveTrade_fst_count cfg rm _ now
          simp only [closeTrade, h1, hcount]
          simp only [List.length_cons]
          omega

lemma engineInv_processSignal (cfg : Config) (e : Engine) (sig : Signal)
    (now : Now) (h : EngineInv e) :
    EngineInv (processSignal cfg e sig now).1 := by
  obtain ⟨h1, h2, h3⟩ := h
  simp only [processSignal]
  cases hc : (canTrade cfg e.rm now).1 with
  | false =>
    simp only [hc, Bool.false_eq_true, if_false]
    exact ⟨by simpa [canTrade_count] using h1, h2, h3⟩
  | true =>
    simp only [hc, if_true]
    refine ⟨?_, ?_, h3⟩
    · simp [openTrade, canTrade_count, h1]
    · intro u hu
      rcases List.mem_append.mp hu with hu1 | hu1
      · exact h2 u hu1
      · have : u = mkTrade cfg (e.trade_counter + 1) sig.symbol sig.direction
            sig.price (positionSize cfg (canTrade cfg e.rm now).2.2)
            sig.confidence now := by
          simpa using hu1
        rw [this]
        rfl

lemma engineInv_tick (cfg : Config) (e : Engine) (now : Now)
    (prices : String → Option ℚ) (h : EngineInv e) :
    EngineInv (checkAndResolveTrades cfg e now prices) := by
  obtain ⟨h1, h2, h3⟩ := h
  have hf := resolve_fold_inv cfg now prices e.active_trades e.rm []
    e.completed_trades h2 (by simp) h3 (by simpa using h1)
  simp only [checkAndResolveTrades]
  exact ⟨hf.1, hf.2.1, hf.2.2⟩

lemma engineInv_init (cfg : Config) (now : Now) :
    EngineInv (engineInit cfg now) := by
  refine ⟨?_, by simp [engineInit], by simp [engineInit]⟩
  simp [engineInit, mkRiskManager, resetDaily_count]

lemma engineInv_run (cfg : Config) (ops : List Op) :
    ∀ e : Engine, EngineInv e → EngineInv (runOps cfg e ops) := by
  induction ops with
  | nil => intro e h; exact h
  | cons op ops ih =>
    intro e h
    have hstep : EngineInv (applyOp cfg e op) := by
      cases op with
      | signal sig now => exact engineInv_processSignal cfg e sig now h
      | tick now prices => exact engineInv_tick cfg e now prices h
    exact ih (applyOp cfg e op) hstep

/-- Claim C6: at every reachable point of the trade lifecycle (any sequence
of `process_signal` and `check_and_resolve_trades` steps from a fresh
engine) the risk gate's `open_trades_count` equals the number of trades
held by the engine with `resolved = false`: opening a trade appends one
unresolved trade and increments the counter, and resolution moves a trade
out of the active set exactly when marking it resolved, decrementing the
counter once. -/
theorem c6_open_count_invariant (cfg : Config) (now0 : Now) (ops : List Op) :
    (runOps cfg (engineInit cfg now0) ops).rm.open_trades_count
      = (((runOps cfg (engineInit cfg now0) ops).active_trades
          ++ (runOps cfg (engineInit cfg now0) ops).completed_trades).countP
          (fun t => !t.resolved)) := by
  obtain ⟨h1, h2, h3⟩ :=
    engineInv_run cfg ops (engineInit cfg now0) (engineInv_init cfg now0)
  rw [List.countP_append]
  have ha : (runOps cfg (engineInit cfg now0) ops).active_trades.countP
      (fun t => !t.resolved)
        = (runOps cfg (engineInit cfg now0) ops).active_trades.length :=
    List.countP_eq_length.mpr (fun a hha => by simp [h2 a hha])
  have hc : (runOps cfg (engineInit cfg now0) ops).completed_trades.countP
      (fun t => !t.resolved) = 0 :=
    List.countP_eq_zero.mpr (fun a hha => by simp [h3 a hha])
  rw [ha, hc, h1]
  omega

/-! ### Absence of configuration validation at startup (C8) -/

/-- An invalid configuration in the sense of the spec: a negative indicator
weight and zero allowed open trades. -/
def badConfig : Config :=
  { defaultConfig with maxOpenTrades := 0, wRsi := -(1/5) }

/-- Counterexample to C8 as stated: with a configuration carrying a
negative RSI weight and `max_open_trades = 0`, constructing the risk
manager and the signal engine does not fail — neither `__init__` contains
any validation — and the system then operates with the invalid values: the
signal engine stores the negative weight, and `can_trade` is permanently
blocked by the max-open-trades rule (`0 ≥ 0`). -/
theorem c8_counterexample :
    badConfig.maxOpenTrades = 0 ∧ badConfig.wRsi < 0 ∧
    (mkRiskManager badConfig none ⟨0, 0⟩).balance = 20 ∧
    mkSignalEngine badConfig "rsi" = -(1/5) ∧
    (canTrade badConfig (mkRiskManager badConfig none ⟨0, 0⟩) ⟨0, 0⟩).2.1
      = Reason.maxOpenTrades := by
  refine ⟨rfl, by norm_num [badConfig, defaultConfig], ?_, rfl, ?_⟩
  · norm_num [mkRiskManager, resetDailyStats, badConfig, defaultConfig]
  · norm_num [canTrade, canTradeRest, mkRiskManager, resetDailyStats,
      dailyLossPct, badConfig, defaultConfig]

/-- Claim C8 (amended): the code performs no startup validation of the
configuration.  For any configuration with `max_open_trades = 0` (and a
sane balance setup so that the earlier rules do not fire first),
`RiskManager.__init__` and `SignalEngine.__init__` complete normally,
storing the configured values as they are, and every subsequent
`can_trade` call is blocked by the max-open-trades rule — the system
silently misoperates instead of refusing to initialize. -/
theorem c8_init_accepts_invalid_config (cfg : Config) (now : Now)
    (h0 : cfg.maxOpenTrades = 0) (h1 : 0 ≤ cfg.initialBalance)
    (h2 : cfg.minBalanceFrac ≤ 1) (h3 : 0 < cfg.maxDailyLoss) :
    (mkRiskManager cfg none now).balance = cfg.initialBalance ∧
    mkSignalEngine cfg "rsi" = cfg.wRsi ∧
    (canTrade cfg (mkRiskManager cfg none now) now).1 = false ∧
    (canTrade cfg (mkRiskManager cfg none now) now).2.1
      = Reason.maxOpenTrades := by
  have hne : now.day - 1 ≠ now.day := by omega
  have hmk : mkRiskManager cfg none now
      = { initial_balance := cfg.initialBalance, balance := cfg.initialBalance
          daily_stats :=
            { date := now.day, starting_balance := cfg.initialBalance,
              trades_taken := 0, wins := 0, losses := 0, total_pnl := 0,
              consecutive_losses := 0, cooldown_until := none }
          open_trades_count := 0
          trade_history := [] } := by
    simp [mkRiskManager, resetDailyStats, hne]
  have hr1 : ¬(cfg.initialBalance
      < cfg.initialBalance * cfg.minBalanceFrac) := by
    apply not_lt.mpr
    calc cfg.initialBalance * cfg.minBalanceFrac
        ≤ cfg.initialBalance * 1 := by
          apply mul_le_mul_of_nonneg_left h2 h1
      _ = cfg.initialBalance := by ring
  have hloss : dailyLossPct
      { date := now.day, starting_balance := cfg.initialBalance,
        trades_taken := 0, wins := 0, losses := 0, total_pnl := 0,
        consecutive_losses := 0, cooldown_until := none } = 0 := by
    simp [dailyLossPct]
  have hr2 : ¬((0 : ℚ) ≥ cfg.maxDailyLoss * 100) := by
    apply not_le.mpr
    positivity
  refine ⟨by rw [hmk], rfl, ?_, ?_⟩ <;>
    rw [hmk] <;>
    simp [canTrade, resetDailyStats, canTradeRest, hr1, hloss, hr2, h0,
      dailyLossPct]

/-- Witness for C8 (amended): the concrete invalid configuration
`badConfig` is accepted and leaves the gate permanently closed. -/
theorem c8_witness :
    (mkRiskManager badConfig none ⟨1, 0⟩).balance = badConfig.initialBalance ∧
    mkSignalEngine badConfig "rsi" = badConfig.wRsi ∧
    (canTrade badConfig (mkRiskManager badConfig none ⟨1, 0⟩) ⟨1, 0⟩).1
      = false ∧
    (canTrade badConfig (mkRiskManager badConfig none ⟨1, 0⟩) ⟨1, 0⟩).2.1
      = Reason.maxOpenTrades :=
  c8_init_accepts_invalid_config badConfig ⟨1, 0⟩ rfl
    (by norm_num [badConfig, defaultConfig])
    (by norm_num [badConfig, defaultConfig])
    (by norm_num [badConfig, defaultConfig])
